import Mathlib

/-!
Verification of `openmmtools/forces.py`: reaction-field electrostatic force
builders and nonbonded-force locator utilities.

Modelling conventions (shallow embedding):
- Length quantities (cutoff distance, switch width) and the dielectric constant
  are rationals, understood to be expressed in the engine's canonical MD unit
  system; the spec places unit handling and unit conversion out of scope, so
  `value_in_unit_system(md_unit_system)` is the identity here.
- The Python `None` sentinel for `switch_width` is `Option ℚ` with `none`.
- The generated energy-expression string is modelled symbolically: its
  functional form is an `EnergyForm` tag and the literal numeric constants it
  embeds are the fields of `EnergyExpression` (the decimal rendering of those
  constants in the string is a representation detail owned by the external
  expression evaluator, out of scope per the spec).
- Python exceptions become an explicit `Except PyError` result: the
  `ValueError` raised for multiple nonbonded forces and the `AttributeError`
  from dereferencing an absent (`None`) force.
-/

namespace OpenMMTools

open Filter Topology

/-- Reaction-field quadratic coefficient, mirroring
`k_rf = cutoff_distance**(-3) * (reaction_field_dielectric - 1.0) / (2.0*reaction_field_dielectric + 1.0)`
(forces.py lines 97 and 218). Generic over a division ring so it can be read
both at ℚ (the executable model) and at ℝ (for asymptotic statements). -/
def k_rf {α : Type} [DivisionRing α] (cutoff_distance reaction_field_dielectric : α) : α :=
  cutoff_distance ^ (-3 : ℤ) * (reaction_field_dielectric - 1) / (2 * reaction_field_dielectric + 1)

/-- Reaction-field constant-shift coefficient, mirroring
`c_rf = cutoff_distance**(-1) * (3*reaction_field_dielectric) / (2.0*reaction_field_dielectric + 1.0)`
(forces.py line 219). -/
def c_rf {α : Type} [DivisionRing α] (cutoff_distance reaction_field_dielectric : α) : α :=
  cutoff_distance ^ (-1 : ℤ) * (3 * reaction_field_dielectric) / (2 * reaction_field_dielectric + 1)

/-- Modelled from the spec: the Coulomb constant literal `ONE_4PI_EPS0` is
imported from `openmmtools.constants`, a module not part of the source under
verification; the spec describes it only as "a Coulomb constant literal"
already in the engine's units. No claim depends on its value. -/
def ONE_4PI_EPS0 : ℚ := 138.935456

/-- Functional form of the generated energy expression. `unshifted` is
`ONE_4PI_EPS0*chargeprod*(r^(-1) + k_rf*r^2)`, `switched` is
`ONE_4PI_EPS0*chargeprod*(r^(-1) + k_rf*r^2 - c_rf)`. -/
inductive EnergyForm where
  | unshifted
  | switched
deriving DecidableEq, Repr

/-- The energy-expression string, modelled symbolically: the functional form
plus the literal numeric constants embedded in it. -/
structure EnergyExpression where
  form : EnergyForm
  k_rf_value : ℚ
  c_rf_value : Option ℚ
  one_4pi_eps0 : ℚ
deriving DecidableEq, Repr

/-- Nonbonded method selector of the engine's custom nonbonded force. -/
inductive NonbondedMethod where
  | NoCutoff
  | CutoffNonPeriodic
  | CutoffPeriodic
deriving DecidableEq, Repr

/-- State of an engine `CustomNonbondedForce` object as configured by this
module: energy expression, declared per-particle parameter names, nonbonded
method, cutoff, long-range-correction flag, switching configuration
(`switchingDistance = none` when it was never set), added particles (each a
list of per-particle parameter values) and exclusion pairs. -/
structure CustomNonbondedForce where
  energy : EnergyExpression
  perParticleParameters : List String
  nonbondedMethod : NonbondedMethod
  cutoffDistance : ℚ
  useLongRangeCorrection : Bool
  useSwitchingFunction : Bool
  switchingDistance : Option ℚ
  particles : List (List ℚ)
  exclusions : List (ℕ × ℕ)
deriving DecidableEq, Repr

/-- `CustomNonbondedForce.addParticle`: appends a per-particle parameter list. -/
def CustomNonbondedForce.addParticle (f : CustomNonbondedForce) (params : List ℚ) :
    CustomNonbondedForce :=
  { f with particles := f.particles ++ [params] }

/-- `CustomNonbondedForce.addExclusion`: appends an excluded particle pair. -/
def CustomNonbondedForce.addExclusion (f : CustomNonbondedForce) (i j : ℕ) :
    CustomNonbondedForce :=
  { f with exclusions := f.exclusions ++ [(i, j)] }

/-- Source `NonbondedForce` data read by this module: cutoff distance,
reaction-field dielectric, per-particle `(charge, sigma, epsilon)` records and
exception records `(iatom, jatom, chargeprod, sigma, epsilon)`. -/
structure NonbondedForce where
  cutoffDistance : ℚ
  reactionFieldDielectric : ℚ
  particles : List (ℚ × ℚ × ℚ)
  exceptions : List (ℕ × ℕ × ℚ × ℚ × ℚ)
deriving DecidableEq, Repr

/-- A force registered in a `System`: either a `NonbondedForce` or a force of
any other runtime type (identified only by a tag, since `isinstance` filtering
is all this module does with it). -/
inductive Force where
  | nonbonded (f : NonbondedForce)
  | other (tag : String)
deriving DecidableEq, Repr

/-- An engine `System`: an ordered list of registered forces. -/
structure System where
  forces : List Force
deriving DecidableEq, Repr

/-- Python exceptions this module can raise: the
`ValueError('The System has multiple NonbondedForces')` of
`find_nonbonded_force`, and the `AttributeError` produced when the absent
(`None`) result of the locator is dereferenced by a copy constructor. -/
inductive PyError where
  | MultipleForcesError
  | NoneTypeAttributeError
deriving DecidableEq, Repr

/-- Loop body of `find_nonbonded_force` (forces.py lines 45-51): fold over the
force list, holding the nonbonded force found so far; a second match raises. -/
def findLoop : List Force → Option NonbondedForce → Except PyError (Option NonbondedForce)
  | [], acc => .ok acc
  | .nonbonded nb :: rest, acc =>
    match acc with
    | some _ => .error .MultipleForcesError
    | none => findLoop rest (some nb)
  | .other _ :: rest, acc => findLoop rest acc

/-- `find_nonbonded_force(system)`: returns the sole `NonbondedForce` of the
system (`none` if there is none), raising if more than one is present. -/
def find_nonbonded_force (system : System) : Except PyError (Option NonbondedForce) :=
  findLoop system.forces none

/-- The `isinstance(force, openmm.NonbondedForce)` check, as a partial
coercion: `some` with the nonbonded force when the check passes. -/
def asNonbondedForce : Force → Option NonbondedForce
  | .nonbonded nb => some nb
  | .other _ => none

/-- Boolean form of the `isinstance` check. -/
def isNonbondedB (f : Force) : Bool := (asNonbondedForce f).isSome

/-- `iterate_nonbonded_forces(system)` (forces.py lines 68-70): the
yield-if-isinstance loop is the `filterMap` of the isinstance coercion over
the system's forces, preserving registration order. -/
def iterate_nonbonded_forces (system : System) : List NonbondedForce :=
  system.forces.filterMap asNonbondedForce

/-- `UnshiftedReactionFieldForce.__init__` (forces.py lines 95-119): computes
`k_rf`, assembles the unshifted energy expression, declares the "charge"
per-particle parameter, sets the cutoff-periodic method, cutoff distance,
disables the long-range correction, and configures switching from
`switch_width` (`none` meaning truncated). -/
def UnshiftedReactionFieldForce.init (cutoff_distance : ℚ) (switch_width : Option ℚ)
    (reaction_field_dielectric : ℚ) : CustomNonbondedForce :=
  let k := k_rf cutoff_distance reaction_field_dielectric
  let base : CustomNonbondedForce :=
    { energy := { form := .unshifted, k_rf_value := k, c_rf_value := none
                  one_4pi_eps0 := ONE_4PI_EPS0 }
      perParticleParameters := ["charge"]
      nonbondedMethod := .CutoffPeriodic
      cutoffDistance := cutoff_distance
      useLongRangeCorrection := false
      useSwitchingFunction := false
      switchingDistance := none
      particles := []
      exclusions := [] }
  match switch_width with
  | some w => { base with useSwitchingFunction := true
                          switchingDistance := some (cutoff_distance - w) }
  | none => { base with useSwitchingFunction := false }

/-- `SwitchedReactionFieldForce.__init__` (forces.py lines 216-242): same as
the unshifted variant but also computes `c_rf` and embeds it in the switched
energy expression. -/
def SwitchedReactionFieldForce.init (cutoff_distance : ℚ) (switch_width : Option ℚ)
    (reaction_field_dielectric : ℚ) : CustomNonbondedForce :=
  let k := k_rf cutoff_distance reaction_field_dielectric
  let c := c_rf cutoff_distance reaction_field_dielectric
  let base : CustomNonbondedForce :=
    { energy := { form := .switched, k_rf_value := k, c_rf_value := some c
                  one_4pi_eps0 := ONE_4PI_EPS0 }
      perParticleParameters := ["charge"]
      nonbondedMethod := .CutoffPeriodic
      cutoffDistance := cutoff_distance
      useLongRangeCorrection := false
      useSwitchingFunction := false
      switchingDistance := none
      particles := []
      exclusions := [] }
  match switch_width with
  | some w => { base with useSwitchingFunction := true
                          switchingDistance := some (cutoff_distance - w) }
  | none => { base with useSwitchingFunction := false }

/-- `UnshiftedReactionFieldForce.from_nonbonded_force` (forces.py lines
148-163): builds the force from the source's cutoff and dielectric, then adds
one particle per source particle carrying only its charge, then one exclusion
per source exception carrying only its particle-index pair. -/
def UnshiftedReactionFieldForce.from_nonbonded_force (nonbonded_force : NonbondedForce)
    (switch_width : Option ℚ) : CustomNonbondedForce :=
  let rff := UnshiftedReactionFieldForce.init nonbonded_force.cutoffDistance switch_width
      nonbonded_force.reactionFieldDielectric
  let rff := nonbonded_force.particles.foldl (fun f p => f.addParticle [p.1]) rff
  nonbonded_force.exceptions.foldl (fun f e => f.addExclusion e.1 e.2.1) rff

/-- `SwitchedReactionFieldForce.from_nonbonded_force` (forces.py lines
271-286): identical to the unshifted variant's copy constructor. -/
def SwitchedReactionFieldForce.from_nonbonded_force (nonbonded_force : NonbondedForce)
    (switch_width : Option ℚ) : CustomNonbondedForce :=
  let rff := SwitchedReactionFieldForce.init nonbonded_force.cutoffDistance switch_width
      nonbonded_force.reactionFieldDielectric
  let rff := nonbonded_force.particles.foldl (fun f p => f.addParticle [p.1]) rff
  nonbonded_force.exceptions.foldl (fun f e => f.addExclusion e.1 e.2.1) rff

/-- `UnshiftedReactionFieldForce.from_system` (forces.py lines 199-200):
locates the nonbonded force and delegates to `from_nonbonded_force`. When the
locator returns the absent value, the delegate dereferences `None`
(`nonbonded_force.getCutoffDistance()`), which is the `AttributeError` case. -/
def UnshiftedReactionFieldForce.from_system (system : System) (switch_width : Option ℚ) :
    Except PyError CustomNonbondedForce :=
  match find_nonbonded_force system with
  | .error e => .error e
  | .ok none => .error .NoneTypeAttributeError
  | .ok (some nb) => .ok (UnshiftedReactionFieldForce.from_nonbonded_force nb switch_width)

/-- `SwitchedReactionFieldForce.from_system` (forces.py lines 322-323). -/
def SwitchedReactionFieldForce.from_system (system : System) (switch_width : Option ℚ) :
    Except PyError CustomNonbondedForce :=
  match find_nonbonded_force system with
  | .error e => .error e
  | .ok none => .error .NoneTypeAttributeError
  | .ok (some nb) => .ok (SwitchedReactionFieldForce.from_nonbonded_force nb switch_width)

/-!
Helper lemmas about the locator loop.
-/

/-- If no force of the list passes the isinstance check, the search loop
returns its accumulator unchanged. -/
theorem findLoop_of_no_match (l : List Force) (acc : Option NonbondedForce)
    (h : l.filterMap asNonbondedForce = []) : findLoop l acc = .ok acc := by
  induction l generalizing acc with
  | nil => rfl
  | cons f rest ih =>
    cases f with
    | nonbonded nb => simp [asNonbondedForce, List.filterMap_cons] at h
    | other t =>
      rw [List.filterMap_cons] at h
      simp only [asNonbondedForce] at h
      exact ih acc h

/-- Once a nonbonded force is held in the accumulator, any further match makes
the loop raise. -/
theorem findLoop_some_of_match (l : List Force) (a : NonbondedForce)
    (h : l.filterMap asNonbondedForce ≠ []) :
    findLoop l (some a) = .error .MultipleForcesError := by
  induction l with
  | nil => simp [List.filterMap_nil] at h
  | cons f rest ih =>
    cases f with
    | nonbonded nb => rfl
    | other t =>
      rw [List.filterMap_cons] at h
      simp only [asNonbondedForce] at h
      exact ih h

/-- With exactly one match in the list, the loop started empty returns it. -/
theorem findLoop_singleton (l : List Force) (nb : NonbondedForce)
    (h : l.filterMap asNonbondedForce = [nb]) : findLoop l none = .ok (some nb) := by
  induction l with
  | nil => simp [List.filterMap_nil] at h
  | cons f rest ih =>
    cases f with
    | nonbonded nb₀ =>
      rw [List.filterMap_cons] at h
      simp only [asNonbondedForce] at h
      obtain ⟨h1, h2⟩ := List.cons_eq_cons.mp h
      subst h1
      exact findLoop_of_no_match rest (some _) h2
    | other t =>
      rw [List.filterMap_cons] at h
      simp only [asNonbondedForce] at h
      exact ih h

/-- With at least two matches in the list, the loop started empty raises. -/
theorem findLoop_two_le (l : List Force)
    (h : 2 ≤ (l.filterMap asNonbondedForce).length) :
    findLoop l none = .error .MultipleForcesError := by
  induction l with
  | nil => simp [List.filterMap_nil] at h
  | cons f rest ih =>
    cases f with
    | nonbonded nb =>
      rw [List.filterMap_cons] at h
      simp only [asNonbondedForce, List.length_cons] at h
      have hne : rest.filterMap asNonbondedForce ≠ [] := by
        intro hnil
        rw [hnil] at h
        simp at h
      exact findLoop_some_of_match rest nb hne
    | other t =>
      rw [List.filterMap_cons] at h
      simp only [asNonbondedForce] at h
      exact ih h

/-- Mapping the constructor back over the matched forces recovers the filter
of the original list: the matches are a subsequence in original order. -/
theorem filterMap_as_filter (l : List Force) :
    (l.filterMap asNonbondedForce).map Force.nonbonded = l.filter isNonbondedB := by
  induction l with
  | nil => rfl
  | cons f rest ih =>
    cases f with
    | nonbonded nb => simp [asNonbondedForce, isNonbondedB, List.filterMap_cons, ih]
    | other t => simp [asNonbondedForce, isNonbondedB, List.filterMap_cons, ih]

/-- If no force of the list passes the isinstance check, the filterMap is
empty. -/
theorem filterMap_eq_nil_of_none (l : List Force)
    (h : ∀ f ∈ l, isNonbondedB f = false) : l.filterMap asNonbondedForce = [] := by
  induction l with
  | nil => rfl
  | cons f rest ih =>
    cases f with
    | nonbonded nb => simpa [isNonbondedB, asNonbondedForce] using h (.nonbonded nb) (by simp)
    | other t =>
      rw [List.filterMap_cons]
      simp only [asNonbondedForce]
      exact ih fun g hg => h g (List.mem_cons_of_mem _ hg)

/-- C1: for every system, `find_nonbonded_force` returns `none` (no error)
when the system holds zero nonbonded forces, returns the sole nonbonded force
when it holds exactly one, and fails with the multiple-forces error when it
holds two or more. -/
theorem find_nonbonded_force_spec (s : System) :
    (iterate_nonbonded_forces s = [] → find_nonbonded_force s = .ok none) ∧
    (∀ nb, iterate_nonbonded_forces s = [nb] → find_nonbonded_force s = .ok (some nb)) ∧
    (2 ≤ (iterate_nonbonded_forces s).length →
      find_nonbonded_force s = .error .MultipleForcesError) :=
  ⟨fun h => findLoop_of_no_match s.forces none h,
   fun _ h => findLoop_singleton s.forces _ h,
   fun h => findLoop_two_le s.forces h⟩

/-- Witness for C1 at concrete systems with zero, one and two nonbonded
forces. -/
theorem find_nonbonded_force_spec_witness :
    find_nonbonded_force ⟨[.other "HarmonicBondForce"]⟩ = .ok none ∧
    find_nonbonded_force ⟨[.other "HarmonicBondForce", .nonbonded ⟨1.2, 78.3, [], []⟩]⟩
      = .ok (some ⟨1.2, 78.3, [], []⟩) ∧
    find_nonbonded_force ⟨[.nonbonded ⟨1.2, 78.3, [], []⟩, .nonbonded ⟨1.5, 80, [], []⟩]⟩
      = .error .MultipleForcesError :=
  ⟨(find_nonbonded_force_spec _).1 rfl,
   (find_nonbonded_force_spec _).2.1 _ rfl,
   (find_nonbonded_force_spec _).2.2 (by decide)⟩

/-- C7: for every system, `iterate_nonbonded_forces` yields exactly the
nonbonded forces of the system, in registration order (mapping the
constructor back over the yield recovers the isinstance filter of the force
list), and yields nothing when the system holds none. It is a total pure
function of the system, so it raises no error and leaves the system
unmodified. -/
theorem iterate_nonbonded_forces_spec (s : System) :
    (iterate_nonbonded_forces s).map Force.nonbonded = s.forces.filter isNonbondedB ∧
    ((∀ f ∈ s.forces, isNonbondedB f = false) → iterate_nonbonded_forces s = []) :=
  ⟨filterMap_as_filter s.forces, fun h => filterMap_eq_nil_of_none s.forces h⟩

/-- Witness for C7 at a concrete system with no nonbonded force. -/
theorem iterate_nonbonded_forces_spec_witness :
    iterate_nonbonded_forces ⟨[.other "HarmonicAngleForce", .other "CMMotionRemover"]⟩ = [] :=
  (iterate_nonbonded_forces_spec _).2 (by decide)

/-- C4: for every system, `from_system` (both variants) delegates to
`from_nonbonded_force` on the force the locator returns with the given switch
width; it fails with the multiple-forces error when the system holds two or
more nonbonded forces, and with the generic none-dereference error when the
system holds zero. -/
theorem from_system_spec (s : System) (sw : Option ℚ) :
    (∀ nb, find_nonbonded_force s = .ok (some nb) →
      UnshiftedReactionFieldForce.from_system s sw
        = .ok (UnshiftedReactionFieldForce.from_nonbonded_force nb sw) ∧
      SwitchedReactionFieldForce.from_system s sw
        = .ok (SwitchedReactionFieldForce.from_nonbonded_force nb sw)) ∧
    (2 ≤ (iterate_nonbonded_forces s).length →
      UnshiftedReactionFieldForce.from_system s sw = .error .MultipleForcesError ∧
      SwitchedReactionFieldForce.from_system s sw = .error .MultipleForcesError) ∧
    (iterate_nonbonded_forces s = [] →
      UnshiftedReactionFieldForce.from_system s sw = .error .NoneTypeAttributeError ∧
      SwitchedReactionFieldForce.from_system s sw = .error .NoneTypeAttributeError) := by
  refine ⟨fun nb h => ?_, fun h => ?_, fun h => ?_⟩
  · rw [UnshiftedReactionFieldForce.from_system, SwitchedReactionFieldForce.from_system, h]
    exact ⟨rfl, rfl⟩
  · have hf := findLoop_two_le s.forces h
    rw [UnshiftedReactionFieldForce.from_system, SwitchedReactionFieldForce.from_system,
      find_nonbonded_force, hf]
    exact ⟨rfl, rfl⟩
  · have hf := findLoop_of_no_match s.forces none h
    rw [UnshiftedReactionFieldForce.from_system, SwitchedReactionFieldForce.from_system,
      find_nonbonded_force, hf]
    exact ⟨rfl, rfl⟩

/-- Witness for C4 at concrete systems with one, two and zero nonbonded
forces. -/
theorem from_system_spec_witness :
    (UnshiftedReactionFieldForce.from_system ⟨[.nonbonded ⟨1.2, 78.3, [], []⟩]⟩ (some 0.1)
      = .ok (UnshiftedReactionFieldForce.from_nonbonded_force ⟨1.2, 78.3, [], []⟩ (some 0.1))) ∧
    (SwitchedReactionFieldForce.from_system
        ⟨[.nonbonded ⟨1.2, 78.3, [], []⟩, .nonbonded ⟨1.5, 80, [], []⟩]⟩ (some 0.1)
      = .error .MultipleForcesError) ∧
    (UnshiftedReactionFieldForce.from_system ⟨[.other "CMMotionRemover"]⟩ none
      = .error .NoneTypeAttributeError) :=
  ⟨((from_system_spec _ _).1 _ (by rfl)).1,
   ((from_system_spec _ _).2.1 (by decide)).2,
   ((from_system_spec _ _).2.2 (by rfl)).1⟩

/-!
Helper lemmas about the constructors and the particle/exclusion folds.
-/

/-- The energy expression built by the unshifted constructor, for any switch
width. -/
theorem init_energy_unshifted (c d : ℚ) (sw : Option ℚ) :
    (UnshiftedReactionFieldForce.init c sw d).energy
      = ⟨.unshifted, k_rf c d, none, ONE_4PI_EPS0⟩ := by
  cases sw <;> rfl

/-- The energy expression built by the switched constructor, for any switch
width. -/
theorem init_energy_switched (c d : ℚ) (sw : Option ℚ) :
    (SwitchedReactionFieldForce.init c sw d).energy
      = ⟨.switched, k_rf c d, some (c_rf c d), ONE_4PI_EPS0⟩ := by
  cases sw <;> rfl

/-- Both constructors start with no particles and no exclusions. -/
theorem init_particles_exclusions (c d : ℚ) (sw : Option ℚ) :
    (UnshiftedReactionFieldForce.init c sw d).particles = [] ∧
    (UnshiftedReactionFieldForce.init c sw d).exclusions = [] ∧
    (SwitchedReactionFieldForce.init c sw d).particles = [] ∧
    (SwitchedReactionFieldForce.init c sw d).exclusions = [] := by
  cases sw <;> exact ⟨rfl, rfl, rfl, rfl⟩

/-- The particle-copy fold appends one single-charge particle per source
particle record. -/
theorem particles_foldl_addParticle (l : List (ℚ × ℚ × ℚ)) (f : CustomNonbondedForce) :
    (l.foldl (fun g p => g.addParticle [p.1]) f).particles
      = f.particles ++ l.map (fun p => [p.1]) := by
  induction l generalizing f with
  | nil => simp
  | cons p rest ih =>
    rw [List.foldl_cons, ih]
    simp [CustomNonbondedForce.addParticle]

/-- The particle-copy fold leaves the exclusions unchanged. -/
theorem exclusions_foldl_addParticle (l : List (ℚ × ℚ × ℚ)) (f : CustomNonbondedForce) :
    (l.foldl (fun g p => g.addParticle [p.1]) f).exclusions = f.exclusions := by
  induction l generalizing f with
  | nil => rfl
  | cons p rest ih =>
    rw [List.foldl_cons, ih]
    simp [CustomNonbondedForce.addParticle]

/-- The particle-copy fold leaves the energy expression unchanged. -/
theorem energy_foldl_addParticle (l : List (ℚ × ℚ × ℚ)) (f : CustomNonbondedForce) :
    (l.foldl (fun g p => g.addParticle [p.1]) f).energy = f.energy := by
  induction l generalizing f with
  | nil => rfl
  | cons p rest ih =>
    rw [List.foldl_cons, ih]
    simp [CustomNonbondedForce.addParticle]

/-- The exclusion-copy fold appends one index pair per source exception
record. -/
theorem exclusions_foldl_addExclusion (l : List (ℕ × ℕ × ℚ × ℚ × ℚ))
    (f : CustomNonbondedForce) :
    (l.foldl (fun g e => g.addExclusion e.1 e.2.1) f).exclusions
      = f.exclusions ++ l.map (fun e => (e.1, e.2.1)) := by
  induction l generalizing f with
  | nil => simp
  | cons e rest ih =>
    rw [List.foldl_cons, ih]
    simp [CustomNonbondedForce.addExclusion]

/-- The exclusion-copy fold leaves the particles unchanged. -/
theorem particles_foldl_addExclusion (l : List (ℕ × ℕ × ℚ × ℚ × ℚ))
    (f : CustomNonbondedForce) :
    (l.foldl (fun g e => g.addExclusion e.1 e.2.1) f).particles = f.particles := by
  induction l generalizing f with
  | nil => rfl
  | cons e rest ih =>
    rw [List.foldl_cons, ih]
    simp [CustomNonbondedForce.addExclusion]

/-- The exclusion-copy fold leaves the energy expression unchanged. -/
theorem energy_foldl_addExclusion (l : List (ℕ × ℕ × ℚ × ℚ × ℚ))
    (f : CustomNonbondedForce) :
    (l.foldl (fun g e => g.addExclusion e.1 e.2.1) f).energy = f.energy := by
  induction l generalizing f with
  | nil => rfl
  | cons e rest ih =>
    rw [List.foldl_cons, ih]
    simp [CustomNonbondedForce.addExclusion]

/-- C2: both constructors embed
`k_rf = cutoff^(-3) * (dielectric - 1) / (2*dielectric + 1)` in the energy
expression, and the switched constructor additionally embeds
`c_rf = cutoff^(-1) * (3*dielectric) / (2*dielectric + 1)`; the unshifted
expression embeds no `c_rf` constant. Quantities are in the engine's MD unit
system throughout (unit conversion is the identity in this model). -/
theorem reaction_field_constants (c d : ℚ) (sw : Option ℚ) :
    (UnshiftedReactionFieldForce.init c sw d).energy.k_rf_value
      = c ^ (-3 : ℤ) * (d - 1) / (2 * d + 1) ∧
    (UnshiftedReactionFieldForce.init c sw d).energy.c_rf_value = none ∧
    (UnshiftedReactionFieldForce.init c sw d).energy.form = .unshifted ∧
    (SwitchedReactionFieldForce.init c sw d).energy.k_rf_value
      = c ^ (-3 : ℤ) * (d - 1) / (2 * d + 1) ∧
    (SwitchedReactionFieldForce.init c sw d).energy.c_rf_value
      = some (c ^ (-1 : ℤ) * (3 * d) / (2 * d + 1)) ∧
    (SwitchedReactionFieldForce.init c sw d).energy.form = .switched := by
  rw [init_energy_unshifted, init_energy_switched]
  exact ⟨rfl, rfl, rfl, rfl, rfl, rfl⟩

/-- C5: both constructors, for every cutoff and dielectric: with a
non-sentinel switch width they enable the switching function and set the
switching distance to `cutoff - switch_width`; with the `none` sentinel they
disable the switching function; in all cases they use the cutoff-periodic
nonbonded method, set the cutoff distance, and disable the long-range
correction. -/
theorem constructor_configuration (c d : ℚ) :
    (∀ w : ℚ,
      (UnshiftedReactionFieldForce.init c (some w) d).useSwitchingFunction = true ∧
      (UnshiftedReactionFieldForce.init c (some w) d).switchingDistance = some (c - w) ∧
      (SwitchedReactionFieldForce.init c (some w) d).useSwitchingFunction = true ∧
      (SwitchedReactionFieldForce.init c (some w) d).switchingDistance = some (c - w)) ∧
    ((UnshiftedReactionFieldForce.init c none d).useSwitchingFunction = false ∧
     (SwitchedReactionFieldForce.init c none d).useSwitchingFunction = false) ∧
    (∀ sw : Option ℚ,
      (UnshiftedReactionFieldForce.init c sw d).nonbondedMethod = .CutoffPeriodic ∧
      (UnshiftedReactionFieldForce.init c sw d).cutoffDistance = c ∧
      (UnshiftedReactionFieldForce.init c sw d).useLongRangeCorrection = false ∧
      (SwitchedReactionFieldForce.init c sw d).nonbondedMethod = .CutoffPeriodic ∧
      (SwitchedReactionFieldForce.init c sw d).cutoffDistance = c ∧
      (SwitchedReactionFieldForce.init c sw d).useLongRangeCorrection = false) :=
  ⟨fun w => ⟨rfl, rfl, rfl, rfl⟩,
   ⟨rfl, rfl⟩,
   fun sw => by cases sw <;> exact ⟨rfl, rfl, rfl, rfl, rfl, rfl⟩⟩

/-- C3: both copy constructors produce exactly one particle per source
particle, carrying only its charge, and exactly one exclusion per source
exception, carrying only its index pair, in source order. -/
theorem from_nonbonded_force_copies (nb : NonbondedForce) (sw : Option ℚ) :
    (UnshiftedReactionFieldForce.from_nonbonded_force nb sw).particles
      = nb.particles.map (fun p => [p.1]) ∧
    (UnshiftedReactionFieldForce.from_nonbonded_force nb sw).exclusions
      = nb.exceptions.map (fun e => (e.1, e.2.1)) ∧
    (UnshiftedReactionFieldForce.from_nonbonded_force nb sw).particles.length
      = nb.particles.length ∧
    (UnshiftedReactionFieldForce.from_nonbonded_force nb sw).exclusions.length
      = nb.exceptions.length ∧
    (SwitchedReactionFieldForce.from_nonbonded_force nb sw).particles
      = nb.particles.map (fun p => [p.1]) ∧
    (SwitchedReactionFieldForce.from_nonbonded_force nb sw).exclusions
      = nb.exceptions.map (fun e => (e.1, e.2.1)) ∧
    (SwitchedReactionFieldForce.from_nonbonded_force nb sw).particles.length
      = nb.particles.length ∧
    (SwitchedReactionFieldForce.from_nonbonded_force nb sw).exclusions.length
      = nb.exceptions.length := by
  have hu1 : (UnshiftedReactionFieldForce.from_nonbonded_force nb sw).particles
      = nb.particles.map (fun p => [p.1]) := by
    rw [UnshiftedReactionFieldForce.from_nonbonded_force, particles_foldl_addExclusion,
      particles_foldl_addParticle, (init_particles_exclusions _ _ _).1, List.nil_append]
  have hu2 : (UnshiftedReactionFieldForce.from_nonbonded_force nb sw).exclusions
      = nb.exceptions.map (fun e => (e.1, e.2.1)) := by
    rw [UnshiftedReactionFieldForce.from_nonbonded_force, exclusions_foldl_addExclusion,
      exclusions_foldl_addParticle, (init_particles_exclusions _ _ _).2.1, List.nil_append]
  have hs1 : (SwitchedReactionFieldForce.from_nonbonded_force nb sw).particles
      = nb.particles.map (fun p => [p.1]) := by
    rw [SwitchedReactionFieldForce.from_nonbonded_force, particles_foldl_addExclusion,
      particles_foldl_addParticle, (init_particles_exclusions _ _ _).2.2.1, List.nil_append]
  have hs2 : (SwitchedReactionFieldForce.from_nonbonded_force nb sw).exclusions
      = nb.exceptions.map (fun e => (e.1, e.2.1)) := by
    rw [SwitchedReactionFieldForce.from_nonbonded_force, exclusions_foldl_addExclusion,
      exclusions_foldl_addParticle, (init_particles_exclusions _ _ _).2.2.2, List.nil_append]
  exact ⟨hu1, hu2, by rw [hu1, List.length_map], by rw [hu2, List.length_map],
    hs1, hs2, by rw [hs1, List.length_map], by rw [hs2, List.length_map]⟩

/-- Witness for C3 at the spec's example: charges `[1, -1, 1/2]` and one
exception pair `(0, 1)`. -/
theorem from_nonbonded_force_copies_witness :
    (UnshiftedReactionFieldForce.from_nonbonded_force
        ⟨1.2, 78.3, [(1, 0.3, 0.5), (-1, 0.2, 0.4), (0.5, 0.1, 0.2)], [(0, 1, 2, 0.3, 0.5)]⟩
        (some 0.1)).particles = [[1], [-1], [0.5]] ∧
    (UnshiftedReactionFieldForce.from_nonbonded_force
        ⟨1.2, 78.3, [(1, 0.3, 0.5), (-1, 0.2, 0.4), (0.5, 0.1, 0.2)], [(0, 1, 2, 0.3, 0.5)]⟩
        (some 0.1)).exclusions = [(0, 1)] := by
  have h := from_nonbonded_force_copies
    ⟨1.2, 78.3, [(1, 0.3, 0.5), (-1, 0.2, 0.4), (0.5, 0.1, 0.2)], [(0, 1, 2, 0.3, 0.5)]⟩
    (some 0.1)
  exact ⟨h.1.trans rfl, h.2.1.trans rfl⟩

/-- C6: both copy constructors build a force whose embedded energy-expression
constants equal those of the force constructed directly from the same cutoff
distance and dielectric constant. -/
theorem round_trip_constants (c d : ℚ) (sw : Option ℚ) (nb : NonbondedForce)
    (hc : nb.cutoffDistance = c) (hd : nb.reactionFieldDielectric = d) :
    (UnshiftedReactionFieldForce.from_nonbonded_force nb sw).energy
      = (UnshiftedReactionFieldForce.init c sw d).energy ∧
    (SwitchedReactionFieldForce.from_nonbonded_force nb sw).energy
      = (SwitchedReactionFieldForce.init c sw d).energy := by
  subst hc hd
  constructor
  · rw [UnshiftedReactionFieldForce.from_nonbonded_force, energy_foldl_addExclusion,
      energy_foldl_addParticle]
  · rw [SwitchedReactionFieldForce.from_nonbonded_force, energy_foldl_addExclusion,
      energy_foldl_addParticle]

/-- Witness for C6 at cutoff 1.2 nm (12 Å), switch width 0.1 nm (1 Å) and
dielectric 80, with a nonempty source force. -/
theorem round_trip_constants_witness :
    (UnshiftedReactionFieldForce.from_nonbonded_force
        ⟨1.2, 80, [(1, 0.3, 0.5)], [(0, 1, 2, 0.3, 0.5)]⟩ (some 0.1)).energy
      = (UnshiftedReactionFieldForce.init 1.2 (some 0.1) 80).energy ∧
    (SwitchedReactionFieldForce.from_nonbonded_force
        ⟨1.2, 80, [(1, 0.3, 0.5)], [(0, 1, 2, 0.3, 0.5)]⟩ (some 0.1)).energy
      = (SwitchedReactionFieldForce.init 1.2 (some 0.1) 80).energy :=
  round_trip_constants 1.2 80 (some 0.1) ⟨1.2, 80, [(1, 0.3, 0.5)], [(0, 1, 2, 0.3, 0.5)]⟩ rfl rfl

/-- C10: neither constructor validates the switch width against the cutoff:
for every switch width, including one exceeding the cutoff, construction
yields a force (total, no error path) with switching enabled and switching
distance `cutoff - switch_width`, which is negative whenever the switch width
exceeds the cutoff. -/
theorem no_switch_width_validation (c d w : ℚ) :
    (UnshiftedReactionFieldForce.init c (some w) d).useSwitchingFunction = true ∧
    (UnshiftedReactionFieldForce.init c (some w) d).switchingDistance = some (c - w) ∧
    (SwitchedReactionFieldForce.init c (some w) d).useSwitchingFunction = true ∧
    (SwitchedReactionFieldForce.init c (some w) d).switchingDistance = some (c - w) ∧
    (c < w → c - w < 0 ∧
      (UnshiftedReactionFieldForce.init c (some w) d).switchingDistance = some (c - w) ∧
      (SwitchedReactionFieldForce.init c (some w) d).switchingDistance = some (c - w)) :=
  ⟨rfl, rfl, rfl, rfl, fun h => ⟨by linarith, rfl, rfl⟩⟩

/-- Witness for C10 at cutoff 1 and switch width 2 (switch width exceeding
the cutoff): construction succeeds and the switching distance is negative. -/
theorem no_switch_width_validation_witness :
    (UnshiftedReactionFieldForce.init 1 (some 2) 78.3).switchingDistance
      = some ((1 : ℚ) - 2) ∧ (1 : ℚ) - 2 < 0 ∧
    (SwitchedReactionFieldForce.init 1 (some 2) 78.3).useSwitchingFunction = true := by
  have h := no_switch_width_validation 1 78.3 2
  exact ⟨h.2.1, (h.2.2.2.2 (by norm_num)).1, h.2.2.1⟩

/-!
Numerical properties of the reaction-field coefficients.
-/

/-- The ratio `(3*t)/(2*t+1)` tends to `3/2` as `t → ∞`. -/
theorem tendsto_c_rf_ratio :
    Tendsto (fun t : ℝ => 3 * t / (2 * t + 1)) atTop (nhds (3 / 2)) := by
  have hden : Tendsto (fun t : ℝ => 2 + t⁻¹) atTop (nhds 2) := by
    simpa using tendsto_const_nhds.add (tendsto_inv_atTop_zero (𝕜 := ℝ))
  have h : Tendsto (fun t : ℝ => 3 / (2 + t⁻¹)) atTop (nhds (3 / 2)) :=
    tendsto_const_nhds.div hden (by norm_num)
  refine Tendsto.congr' ?_ h
  filter_upwards [eventually_gt_atTop (0 : ℝ)] with t ht
  have ht0 : t ≠ 0 := ne_of_gt ht
  have h21 : 2 * t + 1 ≠ 0 := by positivity
  have hne2 : 2 + t⁻¹ ≠ 0 := by positivity
  rw [div_eq_div_iff hne2 h21]
  field_simp
  try ring

/-- The ratio `(t-1)/(2*t+1)` tends to `1/2` as `t → ∞`. -/
theorem tendsto_k_rf_ratio :
    Tendsto (fun t : ℝ => (t - 1) / (2 * t + 1)) atTop (nhds (1 / 2)) := by
  have hden : Tendsto (fun t : ℝ => 2 + t⁻¹) atTop (nhds 2) := by
    simpa using tendsto_const_nhds.add (tendsto_inv_atTop_zero (𝕜 := ℝ))
  have hnum : Tendsto (fun t : ℝ => 1 - t⁻¹) atTop (nhds 1) := by
    simpa using tendsto_const_nhds.sub (tendsto_inv_atTop_zero (𝕜 := ℝ))
  have h : Tendsto (fun t : ℝ => (1 - t⁻¹) / (2 + t⁻¹)) atTop (nhds (1 / 2)) := by
    simpa using hnum.div hden (by norm_num)
  refine Tendsto.congr' ?_ h
  filter_upwards [eventually_gt_atTop (0 : ℝ)] with t ht
  have ht0 : t ≠ 0 := ne_of_gt ht
  have h21 : 2 * t + 1 ≠ 0 := by positivity
  have hne2 : 2 + t⁻¹ ≠ 0 := by positivity
  rw [div_eq_div_iff hne2 h21]
  field_simp
  try ring

/-- As the dielectric tends to infinity, `c_rf` tends to
`cutoff⁻¹ * (3/2)`. -/
theorem tendsto_c_rf (x : ℝ) :
    Tendsto (fun t : ℝ => c_rf x t) atTop (nhds (x ^ (-1 : ℤ) * (3 / 2))) := by
  have h := tendsto_c_rf_ratio.const_mul (x ^ (-1 : ℤ))
  refine h.congr fun t => ?_
  rw [c_rf]
  ring

/-- As the dielectric tends to infinity, `k_rf` tends to
`cutoff⁻¹ ^ 3 * (1/2)`. -/
theorem tendsto_k_rf (x : ℝ) :
    Tendsto (fun t : ℝ => k_rf x t) atTop (nhds (x ^ (-3 : ℤ) * (1 / 2))) := by
  have h := tendsto_k_rf_ratio.const_mul (x ^ (-3 : ℤ))
  refine h.congr fun t => ?_
  rw [k_rf]
  ring

/-- Counterexample to C8 as stated: at cutoff `1 > 0` and dielectric
`1/2 > 0`, the `k_rf` embedded by both builders is negative, not strictly
positive. -/
theorem k_rf_positivity_counterexample :
    (0 : ℚ) < 1 ∧ (0 : ℚ) < 1 / 2 ∧
    (UnshiftedReactionFieldForce.init 1 none (1 / 2)).energy.k_rf_value < 0 ∧
    (SwitchedReactionFieldForce.init 1 none (1 / 2)).energy.k_rf_value < 0 := by
  refine ⟨by norm_num, by norm_num, ?_, ?_⟩ <;>
  · rw [show ((1 : ℚ) / 2) = (0.5 : ℚ) by norm_num]
    simp only [init_energy_unshifted, init_energy_switched, k_rf]
    norm_num

/-- C8 amended: for every positive cutoff and every dielectric strictly
greater than 1, the `k_rf` computed and embedded by both builders is strictly
positive; and for every cutoff, every dielectric and every scale factor `a`,
`k_rf` scales as the inverse cube of the cutoff:
`k_rf (a*c) d = a^(-3) * k_rf c d`, unconditionally. -/
theorem k_rf_positive_and_scaling :
    (∀ c d : ℚ, 0 < c → 1 < d → 0 < k_rf c d) ∧
    (∀ (c d : ℚ) (sw : Option ℚ),
      (UnshiftedReactionFieldForce.init c sw d).energy.k_rf_value = k_rf c d ∧
      (SwitchedReactionFieldForce.init c sw d).energy.k_rf_value = k_rf c d) ∧
    (∀ c d a : ℚ, k_rf (a * c) d = a ^ (-3 : ℤ) * k_rf c d) := by
  refine ⟨fun c d hc hd => ?_,
    fun c d sw => ⟨by rw [init_energy_unshifted], by rw [init_energy_switched]⟩,
    fun c d a => ?_⟩
  · have h1 : (0 : ℚ) < c ^ (-3 : ℤ) := zpow_pos hc _
    have h2 : (0 : ℚ) < d - 1 := by linarith
    have h3 : (0 : ℚ) < 2 * d + 1 := by linarith
    exact div_pos (mul_pos h1 h2) h3
  · rw [k_rf, k_rf, mul_zpow]
    ring

/-- Witness for the amended C8: positivity at cutoff 1, dielectric 2; builder
embedding at cutoff 1, switch width 0.1, dielectric 2; scaling at cutoff 2,
scale factor 3 and dielectric 1/2, a dielectric at which positivity fails but
scaling still holds. -/
theorem k_rf_positive_and_scaling_witness :
    0 < k_rf (1 : ℚ) 2 ∧
    (UnshiftedReactionFieldForce.init 1 (some 0.1) 2).energy.k_rf_value = k_rf 1 2 ∧
    (SwitchedReactionFieldForce.init 1 (some 0.1) 2).energy.k_rf_value = k_rf 1 2 ∧
    k_rf ((3 : ℚ) * 2) (1 / 2) = 3 ^ (-3 : ℤ) * k_rf 2 (1 / 2) :=
  ⟨k_rf_positive_and_scaling.1 1 2 (by norm_num) (by norm_num),
   (k_rf_positive_and_scaling.2.1 1 2 (some 0.1)).1,
   (k_rf_positive_and_scaling.2.1 1 2 (some 0.1)).2,
   k_rf_positive_and_scaling.2.2 2 (1 / 2) 3⟩

/-- C9: for every positive cutoff and positive dielectric the `c_rf` computed
and embedded by the switched builder is strictly positive; `c_rf` scales as
the inverse cutoff; and at any fixed cutoff, as the dielectric tends to
infinity, `c_rf` tends to `cutoff^(-1) * 1.5` and `k_rf` tends to
`cutoff^(-3) * 0.5`. -/
theorem c_rf_positive_scaling_limits (c d a : ℚ) (hc : 0 < c) (hd : 0 < d) :
    0 < c_rf c d ∧
    (∀ sw, (SwitchedReactionFieldForce.init c sw d).energy.c_rf_value = some (c_rf c d)) ∧
    c_rf (a * c) d = a ^ (-1 : ℤ) * c_rf c d ∧
    (∀ x : ℝ,
      Tendsto (fun t : ℝ => c_rf x t) atTop (nhds (x ^ (-1 : ℤ) * 1.5)) ∧
      Tendsto (fun t : ℝ => k_rf x t) atTop (nhds (x ^ (-3 : ℤ) * 0.5))) := by
  refine ⟨?_, fun sw => by rw [init_energy_switched], ?_, fun x => ⟨?_, ?_⟩⟩
  · have h1 : (0 : ℚ) < c ^ (-1 : ℤ) := zpow_pos hc _
    have h2 : (0 : ℚ) < 3 * d := by linarith
    have h3 : (0 : ℚ) < 2 * d + 1 := by linarith
    exact div_pos (mul_pos h1 h2) h3
  · rw [c_rf, c_rf, mul_zpow]
    ring
  · rw [show (1.5 : ℝ) = 3 / 2 by norm_num]
    exact tendsto_c_rf x
  · rw [show (0.5 : ℝ) = 1 / 2 by norm_num]
    exact tendsto_k_rf x

/-- Witness for C9 at cutoff 1, dielectric 2 and scale factor 3. -/
theorem c_rf_positive_scaling_limits_witness :
    0 < c_rf (1 : ℚ) 2 ∧
    (∀ sw, (SwitchedReactionFieldForce.init 1 sw 2).energy.c_rf_value = some (c_rf 1 2)) ∧
    c_rf ((3 : ℚ) * 1) 2 = 3 ^ (-1 : ℤ) * c_rf 1 2 ∧
    (∀ x : ℝ,
      Tendsto (fun t : ℝ => c_rf x t) atTop (nhds (x ^ (-1 : ℤ) * 1.5)) ∧
      Tendsto (fun t : ℝ => k_rf x t) atTop (nhds (x ^ (-3 : ℤ) * 0.5))) :=
  c_rf_positive_scaling_limits 1 2 3 (by norm_num) (by norm_num)

end OpenMMTools
